import Mathlib

/-!
Shallow embedding of the tick-driven transaction submission and
confirmation subsystem of the `multivm-agave` validator bridge
(`validator/src/bridge/{util,bridge,ipc,tick}.rs`), together with proofs
about its confirmation retry loop, sequential batch submission, IPC frame
handling and the transfer-with-memo transaction codec.

External effects (the RPC client, the tick driver transport, the wall
clock) are modelled as explicit oracles passed in an environment record;
each loop additionally returns the list of observable events it performed
(polls, ticks, dispatches), so that temporal claims about the code become
statements about these traces.
-/

namespace MultivmBridge

/-- Result of one `get_signature_status_with_commitment` RPC call, i.e. the
Rust type `Result<Option<TransactionResult<()>>, ClientError>`:
`decided r` is `Ok(Some(r))`, `pending` is `Ok(None)`, `queryErr e` is
`Err(e)`. -/
inductive StatusResponse where
  | decided (r : Except String Unit)
  | pending
  | queryErr (e : String)
  deriving Repr

/-- Result of one `TickDriver::trigger_tick` call. -/
inductive TickResult where
  | ok
  | fail (e : String)
  deriving DecidableEq, Repr

/-- Structured form of the errors produced by
`send_and_confirm_transaction_with_driver` (util.rs): each constructor
carries exactly the data interpolated into the corresponding Rust format
string. -/
inductive BridgeError where
  | jwtNotSet
  | jwtMintFailed (e : String)
  | sendFailed (e : String)
  | txFailed (sig : Nat) (cause : String)
  | tickFailed (e : String)
  | timeout (sig : Nat) (attempts : Nat)
  deriving DecidableEq, Repr

/-- Observable events of the retry loop: the initial authenticated
dispatch, one status poll per attempt, and one tick trigger per
non-terminal attempt. -/
inductive Event where
  | sent (sig : Nat)
  | poll (attempt : Nat)
  | tick (attempt : Nat)
  deriving DecidableEq, Repr

/-- Whether an event is a status poll. -/
def Event.isPoll : Event → Bool
  | .poll _ => true
  | _ => false

/-- Whether an event is a tick trigger. -/
def Event.isTick : Event → Bool
  | .tick _ => true
  | _ => false

/-- Environment of `send_and_confirm_transaction_with_driver`: the RPC
client's configured auth-token secret (`rpc_client.get_auth_token_secret()`),
the JWT minting outcome (`create_jwt_token`, which can fail on a malformed
hex secret or an unavailable clock), the authenticated dispatch outcome as
a function of the minted token (`send_transaction_with_auto_token`), and
the per-attempt status-poll and tick outcomes. -/
structure DriverEnv where
  authTokenSecret : Option String
  mintToken : String → Except String String
  send : String → Except String Nat
  status : Nat → StatusResponse
  tick : Nat → TickResult

/-- The polling loop of `send_and_confirm_transaction_with_driver`
(util.rs lines 156-207): attempt number `a` counts up from 1 while the
remaining-attempt budget counts down; `Ok(Some(Ok(_)))` is terminal
success, `Ok(Some(Err(e)))` is terminal rejection, and both `Ok(None)` and
a failed status query fall through to the end-of-attempt tick; a failed
tick is propagated immediately by the `?` operator; exhausting the budget
yields the timeout error naming the signature and `max_retries`. -/
def pollAux (status : Nat → StatusResponse) (tick : Nat → TickResult)
    (sig maxRetries a : Nat) : Nat → Except BridgeError Nat × List Event
  | 0 => (.error (.timeout sig maxRetries), [])
  | remaining + 1 =>
    match status a with
    | .decided (.ok _) => (.ok sig, [.poll a])
    | .decided (.error e) => (.error (.txFailed sig e), [.poll a])
    | _ =>
      match tick a with
      | .fail e => (.error (.tickFailed e), [.poll a, .tick a])
      | .ok =>
        let r := pollAux status tick sig maxRetries (a + 1) remaining
        (r.1, .poll a :: .tick a :: r.2)

/-- Embedding of `send_and_confirm_transaction_with_driver` (util.rs lines
126-215).  The `jwt_secret` function argument is kept in the signature
exactly as in the source, where the first statement of the body shadows it
with `rpc_client.get_auth_token_secret()`; a missing configured secret is
the "JWT token not set" error, minting failure and dispatch failure are
terminal, and otherwise the polling loop runs for `maxRetries` attempts
starting at attempt 1. -/
def send_and_confirm_transaction_with_driver (env : DriverEnv)
    (maxRetries : Nat) (jwt_secret : String) :
    Except BridgeError Nat × List Event :=
  match env.authTokenSecret with
  | none => (.error .jwtNotSet, [])
  | some secret =>
    match env.mintToken secret with
    | .error e => (.error (.jwtMintFailed e), [])
    | .ok token =>
      match env.send token with
      | .error e => (.error (.sendFailed e), [])
      | .ok sig =>
        let r := pollAux env.status env.tick sig maxRetries 1 maxRetries
        (r.1, .sent sig :: r.2)

/-- Embedding of the public wrapper `send_and_confirm_transaction`
(util.rs lines 57-71), which calls the driver variant with the default
budget of 60 attempts (the 100 ms poll interval is a pure sleep and leaves
no trace). -/
def send_and_confirm_transaction (env : DriverEnv) (jwt_secret : String) :
    Except BridgeError Nat × List Event :=
  send_and_confirm_transaction_with_driver env 60 jwt_secret

/-- Trace of `n` consecutive non-terminal attempts starting at attempt
number `a`: each contributes one poll and one tick. -/
def pollTraceFrom (a : Nat) : Nat → List Event
  | 0 => []
  | n + 1 => .poll a :: .tick a :: pollTraceFrom (a + 1) n

/-- Whether a status response is non-terminal for the loop (either
`Ok(None)` or a failed query). -/
def StatusResponse.nonDecided : StatusResponse → Bool
  | .decided _ => false
  | _ => true

theorem pollAux_step_nonDecided (status : Nat → StatusResponse)
    (tick : Nat → TickResult) (sig maxRetries a n : Nat)
    (hs : (status a).nonDecided = true) (ht : tick a = .ok) :
    pollAux status tick sig maxRetries a (n + 1) =
      ((pollAux status tick sig maxRetries (a + 1) n).1,
        .poll a :: .tick a :: (pollAux status tick sig maxRetries (a + 1) n).2) := by
  cases hst : status a with
  | decided r => rw [hst] at hs; simp [StatusResponse.nonDecided] at hs
  | pending => simp [pollAux, hst, ht]
  | queryErr e => simp [pollAux, hst, ht]

theorem pollAux_skip (status : Nat → StatusResponse) (tick : Nat → TickResult)
    (sig maxRetries : Nat) :
    ∀ (j a n : Nat),
      (∀ i, a ≤ i → i < a + j → (status i).nonDecided = true ∧ tick i = .ok) →
      pollAux status tick sig maxRetries a (j + n) =
        ((pollAux status tick sig maxRetries (a + j) n).1,
          pollTraceFrom a j ++ (pollAux status tick sig maxRetries (a + j) n).2) := by
  intro j
  induction j with
  | zero => intro a n _; simp [pollTraceFrom]
  | succ j ih =>
    intro a n h
    have hstep := pollAux_step_nonDecided status tick sig maxRetries a (j + n)
      (h a (Nat.le_refl a) (by omega)).1 (h a (Nat.le_refl a) (by omega)).2
    have hrec := ih (a + 1) n (fun i hi hi2 => h i (by omega) (by omega))
    calc pollAux status tick sig maxRetries a (j + 1 + n)
        = pollAux status tick sig maxRetries a ((j + n) + 1) := by ring_nf
      _ = ((pollAux status tick sig maxRetries (a + 1) (j + n)).1,
            .poll a :: .tick a :: (pollAux status tick sig maxRetries (a + 1) (j + n)).2) := hstep
      _ = ((pollAux status tick sig maxRetries (a + (j + 1)) n).1,
            pollTraceFrom a (j + 1) ++ (pollAux status tick sig maxRetries (a + (j + 1)) n).2) := by
          rw [hrec]
          simp [pollTraceFrom]
          constructor
          · have : a + 1 + j = a + (j + 1) := by omega
            rw [this]
          · have : a + 1 + j = a + (j + 1) := by omega
            rw [this]

/-- C1: with a budget of 3 attempts, a status source that always answers
"not yet processed" and a tick driver that always succeeds, the loop
performs exactly 3 polls and 3 ticks (attempts 1, 2, 3 in order) and
returns the timeout error carrying the signature and the attempt count 3. -/
theorem retry_budget_exhaustion_three (env : DriverEnv) (jwt : String)
    (s tok : String) (sig : Nat)
    (hsec : env.authTokenSecret = some s)
    (hmint : env.mintToken s = .ok tok)
    (hsend : env.send tok = .ok sig)
    (hstatus : ∀ a, env.status a = .pending)
    (htick : ∀ a, env.tick a = .ok) :
    send_and_confirm_transaction_with_driver env 3 jwt =
      (.error (.timeout sig 3), .sent sig :: pollTraceFrom 1 3) ∧
    (.sent sig :: pollTraceFrom 1 3).countP (fun e => e.isPoll) = 3 ∧
    (.sent sig :: pollTraceFrom 1 3).countP (fun e => e.isTick) = 3 := by
  refine ⟨?_, ?_, ?_⟩
  · have hskip := pollAux_skip env.status env.tick sig 3 3 1 0
      (fun i _ _ => ⟨by rw [hstatus i]; rfl, htick i⟩)
    simp only [send_and_confirm_transaction_with_driver, hsec, hmint, hsend]
    rw [show (3 : Nat) = 3 + 0 from rfl] at hskip
    rw [hskip]
    simp [pollAux]
  · rfl
  · rfl

/-- Witness for `retry_budget_exhaustion_three` at a concrete environment. -/
theorem retry_budget_exhaustion_three_witness :
    send_and_confirm_transaction_with_driver
      ⟨some "ab", fun _ => .ok "tok", fun _ => .ok 42,
        fun _ => .pending, fun _ => .ok⟩ 3 "ignored" =
      (.error (.timeout 42 3), .sent 42 :: pollTraceFrom 1 3) :=
  (retry_budget_exhaustion_three
    ⟨some "ab", fun _ => .ok "tok", fun _ => .ok 42,
      fun _ => .pending, fun _ => .ok⟩
    "ignored" "ab" "tok" 42 rfl rfl rfl (fun _ => rfl) (fun _ => rfl)).1

theorem pollAux_congr_status (status status' : Nat → StatusResponse)
    (tick : Nat → TickResult) (sig maxRetries : Nat)
    (h : ∀ i, status i = status' i ∨
      ((status i).nonDecided = true ∧ (status' i).nonDecided = true)) :
    ∀ (n a : Nat),
      pollAux status tick sig maxRetries a n =
        pollAux status' tick sig maxRetries a n := by
  intro n
  induction n with
  | zero => intro a; rfl
  | succ n ih =>
    intro a
    rcases h a with heq | ⟨h1, h2⟩
    · simp only [pollAux, heq, ih]
    · cases hst : status a with
      | decided r => rw [hst] at h1; simp [StatusResponse.nonDecided] at h1
      | pending =>
        cases hst' : status' a with
        | decided r => rw [hst'] at h2; simp [StatusResponse.nonDecided] at h2
        | pending => simp only [pollAux, hst, hst', ih]
        | queryErr e => simp only [pollAux, hst, hst', ih]
      | queryErr e =>
        cases hst' : status' a with
        | decided r => rw [hst'] at h2; simp [StatusResponse.nonDecided] at h2
        | pending => simp only [pollAux, hst, hst', ih]
        | queryErr e2 => simp only [pollAux, hst, hst', ih]

/-- C6 (amended): inside the polling loop, a failed status query is
handled identically to a "not yet processed" answer — replacing any
subset of query outcomes by other non-terminal outcomes changes neither
the loop's result nor its event trace (first conjunct) — but a failed
tick transport interaction is terminal: after `l` non-terminal attempts,
a tick failure at attempt `l + 1` ends the loop at once with that tick
error, with budget left over (second conjunct). -/
theorem transient_error_handling :
    (∀ (sec : Option String) (mint : String → Except String String)
        (send : String → Except String Nat)
        (status status' : Nat → StatusResponse) (tick : Nat → TickResult)
        (maxRetries : Nat) (jwt : String),
      (∀ i, status i = status' i ∨
        ((status i).nonDecided = true ∧ (status' i).nonDecided = true)) →
      send_and_confirm_transaction_with_driver
          ⟨sec, mint, send, status, tick⟩ maxRetries jwt =
        send_and_confirm_transaction_with_driver
          ⟨sec, mint, send, status', tick⟩ maxRetries jwt) ∧
    (∀ (env : DriverEnv) (jwt s tok : String) (sig l m : Nat) (e : String),
      env.authTokenSecret = some s →
      env.mintToken s = .ok tok →
      env.send tok = .ok sig →
      (∀ i, 1 ≤ i → i ≤ l → (env.status i).nonDecided = true ∧ env.tick i = .ok) →
      (env.status (l + 1)).nonDecided = true →
      env.tick (l + 1) = .fail e →
      send_and_confirm_transaction_with_driver env (l + 1 + m) jwt =
        (.error (.tickFailed e),
          .sent sig :: (pollTraceFrom 1 l ++ [.poll (l + 1), .tick (l + 1)]))) := by
  constructor
  · intro sec mint send status status' tick maxRetries jwt h
    have hpoll : ∀ sig,
        pollAux status tick sig maxRetries 1 maxRetries =
          pollAux status' tick sig maxRetries 1 maxRetries :=
      fun sig => pollAux_congr_status status status' tick sig maxRetries h maxRetries 1
    simp only [send_and_confirm_transaction_with_driver, hpoll]
  · intro env jwt s tok sig l m e hsec hmint hsend hrun hs1 ht1
    simp only [send_and_confirm_transaction_with_driver, hsec, hmint, hsend]
    have hfix : pollAux env.status env.tick sig (l + 1 + m) 1 (l + 1 + m) =
        pollAux env.status env.tick sig (l + 1 + m) 1 (l + (1 + m)) := by
      rw [show l + 1 + m = l + (1 + m) from by omega]
    have hskip := pollAux_skip env.status env.tick sig (l + 1 + m) l 1 (1 + m)
      (fun i hi hi2 => hrun i hi (by omega))
    have hstep : pollAux env.status env.tick sig (l + 1 + m) (1 + l) (1 + m) =
        (.error (.tickFailed e), [.poll (1 + l), .tick (1 + l)]) := by
      rw [Nat.add_comm 1 m]
      cases hst : env.status (1 + l) with
      | decided r =>
        rw [show 1 + l = l + 1 from by omega] at hst
        rw [hst] at hs1; simp [StatusResponse.nonDecided] at hs1
      | pending =>
        simp [pollAux, hst, show env.tick (1 + l) = .fail e from by
          rw [show 1 + l = l + 1 from by omega]; exact ht1]
      | queryErr e2 =>
        simp [pollAux, hst, show env.tick (1 + l) = .fail e from by
          rw [show 1 + l = l + 1 from by omega]; exact ht1]
    rw [hfix, hskip, hstep]
    simp [show (1 : Nat) + l = l + 1 from by omega]

/-- Witness for `transient_error_handling` at concrete environments. -/
theorem transient_error_handling_witness :
    send_and_confirm_transaction_with_driver
        ⟨some "ab", fun _ => .ok "tok", fun _ => .ok 42,
          fun _ => .pending, fun _ => .ok⟩ 2 "j1" =
      send_and_confirm_transaction_with_driver
        ⟨some "ab", fun _ => .ok "tok", fun _ => .ok 42,
          fun _ => .queryErr "rpc down", fun _ => .ok⟩ 2 "j1" ∧
    send_and_confirm_transaction_with_driver
        ⟨some "ab", fun _ => .ok "tok", fun _ => .ok 42,
          fun _ => .pending, fun i => if i ≤ 1 then .ok else .fail "io"⟩
        3 "j1" =
      (.error (.tickFailed "io"),
        .sent 42 :: (pollTraceFrom 1 1 ++ [.poll 2, .tick 2])) := by
  constructor
  · exact transient_error_handling.1
      (some "ab") (fun _ => .ok "tok") (fun _ => .ok 42)
      (fun _ => .pending) (fun _ => .queryErr "rpc down") (fun _ => .ok) 2 "j1"
      (fun _ => Or.inr ⟨rfl, rfl⟩)
  · exact transient_error_handling.2
      ⟨some "ab", fun _ => .ok "tok", fun _ => .ok 42,
        fun _ => .pending, fun i => if i ≤ 1 then .ok else .fail "io"⟩
      "j1" "ab" "tok" 42 1 1 "io" rfl rfl rfl
      (fun i h1 h2 => ⟨rfl, by
        have : i = 1 := by omega
        subst this; rfl⟩)
      rfl rfl

/-- Counterexample to C6 as stated: in this concrete environment the tick
transport fails at the very first attempt and the loop returns that
transport error as its final error after a single poll, although the
budget was 3 attempts — a transient per-attempt IPC/tick error is not
treated as "retry". -/
theorem transient_error_handling_counterexample :
    send_and_confirm_transaction_with_driver
        ⟨some "ab", fun _ => .ok "tok", fun _ => .ok 42,
          fun _ => .pending, fun _ => .fail "io error"⟩ 3 "j1" =
      (.error (.tickFailed "io error"), [.sent 42, .poll 1, .tick 1]) := rfl

/-- The polling loop of `Bridge::confirm_transaction` (bridge.rs lines
77-97): the 10-second wall-clock bound with its 10 ms sleep is modelled as
an iteration budget `fuel`; each iteration queries the signature status at
"processed" commitment and returns the status as soon as it is decided
(`Some(status)`), while both `Ok(None)` and a failed query fall through to
the sleep and the next iteration; an exhausted budget returns `None`.
The second component records the 1-based indices of the iterations that
performed a status poll. -/
def confirmAux (status : Nat → StatusResponse) :
    Nat → Nat → Option (Except String Unit) × List Nat
  | _, 0 => (none, [])
  | i, fuel + 1 =>
    match status i with
    | .decided r => (some r, [i])
    | _ =>
      let t := confirmAux status (i + 1) fuel
      (t.1, i :: t.2)

/-- Embedding of `Bridge::confirm_transaction`: run the polling loop from
iteration 1 with the given iteration budget. -/
def confirm_transaction (status : Nat → StatusResponse) (fuel : Nat) :
    Option (Except String Unit) × List Nat :=
  confirmAux status 1 fuel

/-- The list `[i, i + 1, ..., i + n - 1]` of poll iteration indices. -/
def pollIndices (i : Nat) : Nat → List Nat
  | 0 => []
  | n + 1 => i :: pollIndices (i + 1) n

theorem confirmAux_skip (status : Nat → StatusResponse) :
    ∀ (j i fuel : Nat),
      (∀ x, i ≤ x → x < i + j → (status x).nonDecided = true) →
      confirmAux status i (j + fuel) =
        ((confirmAux status (i + j) fuel).1,
          pollIndices i j ++ (confirmAux status (i + j) fuel).2) := by
  intro j
  induction j with
  | zero => intro i fuel _; simp [pollIndices]
  | succ j ih =>
    intro i fuel h
    have hstep : confirmAux status i ((j + fuel) + 1) =
        ((confirmAux status (i + 1) (j + fuel)).1,
          i :: (confirmAux status (i + 1) (j + fuel)).2) := by
      cases hst : status i with
      | decided r =>
        have := h i (Nat.le_refl i) (by omega)
        rw [hst] at this; simp [StatusResponse.nonDecided] at this
      | pending => simp [confirmAux, hst]
      | queryErr e => simp [confirmAux, hst]
    have hrec := ih (i + 1) fuel (fun x hx hx2 => h x (by omega) (by omega))
    calc confirmAux status i (j + 1 + fuel)
        = confirmAux status i ((j + fuel) + 1) := by ring_nf
      _ = ((confirmAux status (i + 1) (j + fuel)).1,
            i :: (confirmAux status (i + 1) (j + fuel)).2) := hstep
      _ = ((confirmAux status (i + (j + 1)) fuel).1,
            pollIndices i (j + 1) ++ (confirmAux status (i + (j + 1)) fuel).2) := by
          rw [hrec]
          simp [pollIndices]
          constructor
          · have : i + 1 + j = i + (j + 1) := by omega
            rw [this]
          · have : i + 1 + j = i + (j + 1) := by omega
            rw [this]

/-- C7: once an on-chain rejection is observed, both loops return it
immediately.  First conjunct: in the authenticated retry loop, if the
first `l` attempts are non-terminal (with successful ticks) and attempt
`l + 1` reports `Some(Err(c))` within the budget, the loop returns the
rejection and its trace ends with the poll of attempt `l + 1` — no
further tick or poll occurs.  Second conjunct: in
`Bridge::confirm_transaction`, if the first `l` iterations are undecided
and iteration `l + 1` reports rejection within the budget, the loop
returns `Some(Err(c))` having polled exactly iterations `1 .. l + 1`. -/
theorem rejection_is_terminal :
    (∀ (env : DriverEnv) (jwt s tok : String) (sig l m : Nat) (c : String),
      env.authTokenSecret = some s →
      env.mintToken s = .ok tok →
      env.send tok = .ok sig →
      (∀ i, 1 ≤ i → i ≤ l → (env.status i).nonDecided = true ∧ env.tick i = .ok) →
      env.status (l + 1) = .decided (.error c) →
      send_and_confirm_transaction_with_driver env (l + 1 + m) jwt =
        (.error (.txFailed sig c),
          .sent sig :: (pollTraceFrom 1 l ++ [.poll (l + 1)]))) ∧
    (∀ (status : Nat → StatusResponse) (l m : Nat) (c : String),
      (∀ i, 1 ≤ i → i ≤ l → (status i).nonDecided = true) →
      status (l + 1) = .decided (.error c) →
      confirm_transaction status (l + 1 + m) =
        (some (.error c), pollIndices 1 l ++ [l + 1])) := by
  constructor
  · intro env jwt s tok sig l m c hsec hmint hsend hrun hs1
    simp only [send_and_confirm_transaction_with_driver, hsec, hmint, hsend]
    have hfix : pollAux env.status env.tick sig (l + 1 + m) 1 (l + 1 + m) =
        pollAux env.status env.tick sig (l + 1 + m) 1 (l + (1 + m)) := by
      rw [show l + 1 + m = l + (1 + m) from by omega]
    have hskip := pollAux_skip env.status env.tick sig (l + 1 + m) l 1 (1 + m)
      (fun i hi hi2 => hrun i hi (by omega))
    have hstep : pollAux env.status env.tick sig (l + 1 + m) (1 + l) (1 + m) =
        (.error (.txFailed sig c), [.poll (1 + l)]) := by
      rw [Nat.add_comm 1 m]
      have hst : env.status (1 + l) = .decided (.error c) := by
        rw [show 1 + l = l + 1 from by omega]; exact hs1
      simp [pollAux, hst]
    rw [hfix, hskip, hstep]
    simp [show (1 : Nat) + l = l + 1 from by omega]
  · intro status l m c hrun hs1
    unfold confirm_transaction
    have hfix : confirmAux status 1 (l + 1 + m) =
        confirmAux status 1 (l + (1 + m)) := by
      rw [show l + 1 + m = l + (1 + m) from by omega]
    have hskip := confirmAux_skip status l 1 (1 + m)
      (fun x hx hx2 => hrun x hx (by omega))
    have hst : status (1 + l) = .decided (.error c) := by
      rw [show 1 + l = l + 1 from by omega]; exact hs1
    have hstep : confirmAux status (1 + l) (1 + m) =
        (some (.error c), [1 + l]) := by
      rw [Nat.add_comm 1 m]
      simp [confirmAux, hst]
    rw [hfix, hskip, hstep]
    simp [show (1 : Nat) + l = l + 1 from by omega]

/-- Witness for `rejection_is_terminal` at concrete inputs (rejection at
attempt 2 of 3 in both loops). -/
theorem rejection_is_terminal_witness :
    send_and_confirm_transaction_with_driver
        ⟨some "ab", fun _ => .ok "tok", fun _ => .ok 42,
          fun i => if i ≤ 1 then .pending else .decided (.error "custom"),
          fun _ => .ok⟩ 3 "j1" =
      (.error (.txFailed 42 "custom"),
        .sent 42 :: (pollTraceFrom 1 1 ++ [.poll 2])) ∧
    confirm_transaction
        (fun i => if i ≤ 1 then .pending else .decided (.error "custom")) 3 =
      (some (.error "custom"), pollIndices 1 1 ++ [2]) := by
  constructor
  · exact rejection_is_terminal.1
      ⟨some "ab", fun _ => .ok "tok", fun _ => .ok 42,
        fun i => if i ≤ 1 then .pending else .decided (.error "custom"),
        fun _ => .ok⟩
      "j1" "ab" "tok" 42 1 1 "custom" rfl rfl rfl
      (fun i h1 h2 => ⟨by
        have : i = 1 := by omega
        subst this; rfl, rfl⟩)
      rfl
  · exact rejection_is_terminal.2
      (fun i => if i ≤ 1 then .pending else .decided (.error "custom"))
      1 1 "custom"
      (fun i h1 h2 => by
        have : i = 1 := by omega
        subst this; rfl)
      rfl

/-- C10: the `jwt_secret` argument of the authenticated retry loop is
dead: the body immediately shadows it with the RPC client's configured
auth-token secret, so any two calls differing only in that argument are
identical (for the driver variant and the default-parameter wrapper
alike), and when the configured secret is absent the call fails fast with
the "JWT token not set" configuration error before any dispatch, poll or
tick, whatever `jwt_secret` argument was supplied. -/
theorem jwt_secret_argument_ignored (env : DriverEnv) (maxRetries : Nat)
    (js1 js2 : String) :
    send_and_confirm_transaction_with_driver env maxRetries js1 =
      send_and_confirm_transaction_with_driver env maxRetries js2 ∧
    send_and_confirm_transaction env js1 = send_and_confirm_transaction env js2 ∧
    (env.authTokenSecret = none →
      send_and_confirm_transaction_with_driver env maxRetries js1 =
        (.error .jwtNotSet, [])) := by
  refine ⟨rfl, rfl, fun h => ?_⟩
  simp [send_and_confirm_transaction_with_driver, h]

/-- Witness for `jwt_secret_argument_ignored`: with no configured secret,
the call with a perfectly valid `jwt_secret` argument still fails fast
with the configuration error and performs no events. -/
theorem jwt_secret_argument_ignored_witness :
    send_and_confirm_transaction_with_driver
        ⟨none, fun _ => .ok "tok", fun _ => .ok 42,
          fun _ => .pending, fun _ => .ok⟩ 3 "deadbeef" =
      (.error .jwtNotSet, []) :=
  (jwt_secret_argument_ignored
    ⟨none, fun _ => .ok "tok", fun _ => .ok 42,
      fun _ => .pending, fun _ => .ok⟩ 3 "deadbeef" "other").2.2 rfl

/-- Whether an `Except` value is a success. -/
def exOk {ε α : Type} : Except ε α → Bool
  | .ok _ => true
  | .error _ => false

/-- Whether an `Except` value is an error. -/
def exErr {ε α : Type} : Except ε α → Bool
  | .error _ => true
  | .ok _ => false

/-- Observable events of `Bridge::send_and_confirm_transactions_sequentially`,
indexed by the position of the transaction in the input slice: the
`get_latest_blockhash` call, the `transaction.sign(signers, ..)` call and
the `tpu_client.send_transaction` dispatch. -/
inductive SeqEvent where
  | fetchHash (i : Nat)
  | sign (i : Nat)
  | dispatch (i : Nat)
  deriving DecidableEq, Repr

/-- Structured form of the error strings produced by
`Bridge::send_and_confirm_transactions_sequentially`: a failed blockhash
fetch propagates the client error, an on-chain failure carries the
signature and the cause, and a confirmation timeout carries the
signature. -/
inductive SeqError where
  | blockhashFailed (e : String)
  | txFailed (sig : Nat) (cause : String)
  | confirmTimeout (sig : Nat)
  deriving DecidableEq, Repr

/-- Environment of the sequential batch loop: the per-iteration
`get_latest_blockhash` outcome, the signature each transaction carries
after being signed with the fetched blockhash (signing is the opaque
`Transaction::sign` of the SDK), and the per-transaction status oracle
with the iteration budget used by the inner `confirm_transaction` loop. -/
structure SeqEnv where
  blockhash : Nat → Except String Nat
  sigOf : Nat → Nat → Nat
  status : Nat → Nat → StatusResponse
  confirmFuel : Nat

/-- Loop body of `Bridge::send_and_confirm_transactions_sequentially`
(bridge.rs lines 99-130) over the list of remaining transaction indices:
for each index in order it fetches a fresh blockhash (propagating a fetch
failure), signs, dispatches (`send_transaction` is fire-and-forget), and
runs the `confirm_transaction` polling loop; `Some(Ok(()))` continues
with the next transaction, `Some(Err(e))` aborts with the failing
signature and cause, `None` aborts with the confirmation timeout naming
the signature. -/
def seqAux (env : SeqEnv) : List Nat → Except SeqError Unit × List SeqEvent
  | [] => (.ok (), [])
  | i :: rest =>
    match env.blockhash i with
    | .error e => (.error (.blockhashFailed e), [.fetchHash i])
    | .ok h =>
      match (confirm_transaction (env.status i) env.confirmFuel).1 with
      | some (.ok _) =>
        let r := seqAux env rest
        (r.1, .fetchHash i :: .sign i :: .dispatch i :: r.2)
      | some (.error e) =>
        (.error (.txFailed (env.sigOf i h) e), [.fetchHash i, .sign i, .dispatch i])
      | none =>
        (.error (.confirmTimeout (env.sigOf i h)), [.fetchHash i, .sign i, .dispatch i])

/-- The list of indices `[a, a + 1, ..., a + n - 1]`. -/
def idxRange (a : Nat) : Nat → List Nat
  | 0 => []
  | n + 1 => a :: idxRange (a + 1) n

/-- Embedding of `Bridge::send_and_confirm_transactions_sequentially` for
a batch of `n` transactions: the loop visits the indices `0 .. n - 1`
strictly in input order. -/
def send_and_confirm_transactions_sequentially (env : SeqEnv) (n : Nat) :
    Except SeqError Unit × List SeqEvent :=
  seqAux env (idxRange 0 n)

/-- Trace of `n` fully processed transactions starting at index `a`:
blockhash fetch, signing and dispatch for each index in order. -/
def seqTraceFrom (a : Nat) : Nat → List SeqEvent
  | 0 => []
  | n + 1 => .fetchHash a :: .sign a :: .dispatch a :: seqTraceFrom (a + 1) n

theorem idxRange_append (a j m : Nat) :
    idxRange a (j + m) = idxRange a j ++ idxRange (a + j) m := by
  induction j generalizing a with
  | zero => simp [idxRange]
  | succ j ih =>
    have : a + (j + 1) = (a + 1) + j := by omega
    calc idxRange a (j + 1 + m)
        = idxRange a ((j + m) + 1) := by ring_nf
      _ = a :: idxRange (a + 1) (j + m) := rfl
      _ = a :: (idxRange (a + 1) j ++ idxRange (a + 1 + j) m) := by rw [ih]
      _ = idxRange a (j + 1) ++ idxRange (a + (j + 1)) m := by
          simp [idxRange, this]

theorem seqAux_skip (env : SeqEnv) (bh : Nat → Nat) :
    ∀ (j a : Nat) (rest : List Nat),
      (∀ i, a ≤ i → i < a + j →
        env.blockhash i = .ok (bh i) ∧
        (confirm_transaction (env.status i) env.confirmFuel).1 = some (.ok ())) →
      seqAux env (idxRange a j ++ rest) =
        ((seqAux env rest).1, seqTraceFrom a j ++ (seqAux env rest).2) := by
  intro j
  induction j with
  | zero => intro a rest _; simp [idxRange, seqTraceFrom]
  | succ j ih =>
    intro a rest h
    have ha := h a (Nat.le_refl a) (by omega)
    have hrec : seqAux env ((idxRange (a + 1) j).append rest) =
        ((seqAux env rest).1, seqTraceFrom (a + 1) j ++ (seqAux env rest).2) :=
      ih (a + 1) rest (fun i hi hi2 => h i (by omega) (by omega))
    simp only [idxRange, List.cons_append, seqAux, ha.1, ha.2, seqTraceFrom]
    rw [hrec]

theorem dispatch_mem_seqTraceFrom :
    ∀ (n a i : Nat), SeqEvent.dispatch i ∈ seqTraceFrom a n ↔ a ≤ i ∧ i < a + n := by
  intro n
  induction n with
  | zero => intro a i; simp [seqTraceFrom]
  | succ n ih =>
    intro a i
    simp [seqTraceFrom, ih]
    omega

theorem seqTraceFrom_snoc (a : Nat) :
    ∀ n, seqTraceFrom a n ++
        [.fetchHash (a + n), .sign (a + n), .dispatch (a + n)] =
      seqTraceFrom a (n + 1) := by
  intro n
  induction n generalizing a with
  | zero => simp [seqTraceFrom]
  | succ n ih =>
    have : a + (n + 1) = (a + 1) + n := by omega
    simp only [seqTraceFrom, List.cons_append, this, ih (a + 1)]

/-- C5: the batch loop processes transactions strictly in input order and
aborts on the first confirmation failure or timeout.  If the first `k`
transactions fetch, dispatch and confirm successfully and transaction `k`
(of a batch of `k + 1 + m`) is rejected on-chain (respectively times
out), the loop returns the error naming transaction `k`'s signature and
cause (respectively the timeout naming its signature), every transaction
up to and including `k` is dispatched in order, and no later transaction
is ever dispatched. -/
theorem sequential_batch_abort (env : SeqEnv) (bh : Nat → Nat)
    (k m : Nat) (e : String)
    (hbh : ∀ i, i ≤ k → env.blockhash i = .ok (bh i))
    (hok : ∀ i, i < k →
      (confirm_transaction (env.status i) env.confirmFuel).1 = some (.ok ())) :
    ((confirm_transaction (env.status k) env.confirmFuel).1 = some (.error e) →
      send_and_confirm_transactions_sequentially env (k + 1 + m) =
        (.error (.txFailed (env.sigOf k (bh k)) e), seqTraceFrom 0 (k + 1)) ∧
      (∀ i, SeqEvent.dispatch i ∈
          (send_and_confirm_transactions_sequentially env (k + 1 + m)).2 ↔ i ≤ k)) ∧
    ((confirm_transaction (env.status k) env.confirmFuel).1 = none →
      send_and_confirm_transactions_sequentially env (k + 1 + m) =
        (.error (.confirmTimeout (env.sigOf k (bh k))), seqTraceFrom 0 (k + 1)) ∧
      (∀ i, SeqEvent.dispatch i ∈
          (send_and_confirm_transactions_sequentially env (k + 1 + m)).2 ↔ i ≤ k)) := by
  have hsplit : idxRange 0 (k + 1 + m) = idxRange 0 k ++ idxRange k (1 + m) := by
    rw [show k + 1 + m = k + (1 + m) from by omega, idxRange_append]
    simp
  have hskip := seqAux_skip env bh k 0 (idxRange k (1 + m))
    (fun i hi hi2 => ⟨hbh i (by omega), hok i (by omega)⟩)
  constructor
  · intro hfail
    have hstep : seqAux env (idxRange k (1 + m)) =
        (.error (.txFailed (env.sigOf k (bh k)) e),
          [.fetchHash k, .sign k, .dispatch k]) := by
      rw [Nat.add_comm 1 m]
      simp [idxRange, seqAux, hbh k (Nat.le_refl k), hfail]
    have hres : send_and_confirm_transactions_sequentially env (k + 1 + m) =
        (.error (.txFailed (env.sigOf k (bh k)) e), seqTraceFrom 0 (k + 1)) := by
      unfold send_and_confirm_transactions_sequentially
      rw [hsplit, hskip, hstep]
      have := seqTraceFrom_snoc 0 k
      simp at this
      simp [this]
    refine ⟨hres, fun i => ?_⟩
    rw [hres]
    simp [dispatch_mem_seqTraceFrom]
    omega
  · intro hfail
    have hstep : seqAux env (idxRange k (1 + m)) =
        (.error (.confirmTimeout (env.sigOf k (bh k))),
          [.fetchHash k, .sign k, .dispatch k]) := by
      rw [Nat.add_comm 1 m]
      simp [idxRange, seqAux, hbh k (Nat.le_refl k), hfail]
    have hres : send_and_confirm_transactions_sequentially env (k + 1 + m) =
        (.error (.confirmTimeout (env.sigOf k (bh k))), seqTraceFrom 0 (k + 1)) := by
      unfold send_and_confirm_transactions_sequentially
      rw [hsplit, hskip, hstep]
      have := seqTraceFrom_snoc 0 k
      simp at this
      simp [this]
    refine ⟨hres, fun i => ?_⟩
    rw [hres]
    simp [dispatch_mem_seqTraceFrom]
    omega

/-- Witness for `sequential_batch_abort`: a batch of three transactions
where the second is rejected on-chain — transactions 0 and 1 are
dispatched, the loop aborts naming transaction 1's signature, and
transaction 2 is never dispatched. -/
theorem sequential_batch_abort_witness :
    send_and_confirm_transactions_sequentially
        ⟨fun _ => .ok 5, fun i _ => 100 + i,
          fun i _ => if i = 0 then .decided (.ok ()) else .decided (.error "custom"),
          2⟩ 3 =
      (.error (.txFailed 101 "custom"), seqTraceFrom 0 2) :=
  ((sequential_batch_abort
      ⟨fun _ => .ok 5, fun i _ => 100 + i,
        fun i _ => if i = 0 then .decided (.ok ()) else .decided (.error "custom"),
        2⟩
      (fun _ => 5) 1 1 "custom"
      (fun i _ => rfl)
      (fun i hi => by
        have : i = 0 := by omega
        subst this; rfl)).1 rfl).1

/-- Observable events of `Bridge::transfer`: the blockhash fetch and the
TPU dispatch, the latter recording the boolean that
`tpu_client.send_transaction` returned. -/
inductive TransferEvent where
  | fetchHash
  | dispatch (accepted : Bool)
  deriving DecidableEq, Repr

/-- Environment of `Bridge::transfer`: the `get_latest_blockhash` outcome,
the signature the built transfer transaction carries after signing with
the fetched blockhash (`system_transaction::transfer` signs with the
keypair), and the boolean returned by the fire-and-forget
`tpu_client.send_transaction`. -/
structure TransferEnv where
  blockhash : Except String Nat
  sigOf : Nat → Nat
  sendAccepted : Bool

/-- Embedding of `Bridge::transfer` (bridge.rs lines 54-65): fetch a
fresh blockhash (propagating a fetch failure), build and sign the single
value-transfer transaction, dispatch it via
`self.tpu_client.send_transaction(&transaction)` — whose boolean result
the source discards — and return `transaction.signatures[0]`. -/
def transfer (env : TransferEnv) : Except String Nat × List TransferEvent :=
  match env.blockhash with
  | .error e => (.error e, [.fetchHash])
  | .ok h => (.ok (env.sigOf h), [.fetchHash, .dispatch env.sendAccepted])

/-- C8 (amended): `Bridge::transfer` returns an error exactly when the
recency-anchor (blockhash) fetch fails; when the fetch succeeds it
returns the signature of the built transaction unconditionally — the
dispatch is fire-and-forget, its boolean result is discarded, and a
rejected dispatch does not produce an error. -/
theorem transfer_error_only_on_blockhash (env : TransferEnv) :
    (∀ e, env.blockhash = .error e → transfer env = (.error e, [.fetchHash])) ∧
    (∀ h, env.blockhash = .ok h →
      transfer env = (.ok (env.sigOf h), [.fetchHash, .dispatch env.sendAccepted])) ∧
    exOk (transfer env).1 = exOk env.blockhash := by
  refine ⟨fun e he => ?_, fun h hh => ?_, ?_⟩
  · simp [transfer, he]
  · simp [transfer, hh]
  · cases hb : env.blockhash <;> simp [transfer, hb, exOk]

/-- Witness for `transfer_error_only_on_blockhash` at concrete
environments, covering both the failed-fetch and successful-fetch cases. -/
theorem transfer_error_only_on_blockhash_witness :
    transfer ⟨.error "conn refused", fun h => h + 1, true⟩ =
      (.error "conn refused", [.fetchHash]) ∧
    transfer ⟨.ok 7, fun h => h + 1, true⟩ =
      (.ok 8, [.fetchHash, .dispatch true]) :=
  ⟨(transfer_error_only_on_blockhash
      ⟨.error "conn refused", fun h => h + 1, true⟩).1 "conn refused" rfl,
    (transfer_error_only_on_blockhash
      ⟨.ok 7, fun h => h + 1, true⟩).2.1 7 rfl⟩

/-- Counterexample to C8 as stated: in this concrete environment the
blockhash fetch succeeds but the TPU dispatch is rejected
(`send_transaction` returns `false`), yet `transfer` still returns the
signature successfully — a failed dispatch does not produce an error. -/
theorem transfer_counterexample :
    transfer ⟨.ok 7, fun h => h + 1, false⟩ =
      (.ok 8, [.fetchHash, .dispatch false]) ∧
    exOk (transfer ⟨.ok 7, fun h => h + 1, false⟩).1 = true :=
  ⟨rfl, rfl⟩

/-- Observable events of one IPC connection handler
(`IpcServer::handle_client`): a fully read frame body of the given
length, a deserialization failure (answered with a failure response,
connection kept open), a handler invocation (`process_message`), a framed
response write, rejection of an oversized declared length (connection
closed before reading the body), a failed body read, and the clean
end-of-stream disconnect. -/
inductive ServerEvent where
  | bodyRead (n : Nat)
  | deserializeError
  | handlerInvoked
  | responseSent (success : Bool)
  | oversizedClosed (n : Nat)
  | readFailed
  | clientDisconnected
  deriving DecidableEq, Repr

/-- Little-endian 32-bit length prefix, as decoded by
`u32::from_le_bytes` on the four header bytes. -/
def le32 (b0 b1 b2 b3 : Nat) : Nat :=
  b0 + 256 * b1 + 65536 * b2 + 16777216 * b3

/-- Embedding of `IpcServer::handle_client` (ipc.rs lines 93-146) over
the connection's incoming byte stream.  Each iteration reads a 4-byte
little-endian length prefix (fewer than 4 remaining bytes is the
`UnexpectedEof` "client disconnected" break), rejects a declared length
strictly greater than the 10 MiB cap by breaking out of the loop without
reading the body, reads exactly `msg_len` body bytes (a short read breaks
with an error), and deserializes: failure sends a `success: false`
response and continues the loop, success invokes `process_message` and
sends its response.  `decode` abstracts `bincode::deserialize` into the
opaque `IpcMessage` type `Msg`, and `handler` abstracts
`process_message`, returning the response's `(success, message)` pair;
response writes are modelled as succeeding (a failed write also breaks
the loop, which no claim here depends on). -/
def handle_client {Msg : Type} (decode : List Nat → Option Msg)
    (handler : Msg → Bool × String) : List Nat → List ServerEvent
  | b0 :: b1 :: b2 :: b3 :: rest =>
    let msg_len := le32 b0 b1 b2 b3
    if msg_len > 10 * 1024 * 1024 then [.oversizedClosed msg_len]
    else if rest.length < msg_len then [.readFailed]
    else
      match decode (rest.take msg_len) with
      | none =>
        .bodyRead msg_len :: .deserializeError :: .responseSent false ::
          handle_client decode handler (rest.drop msg_len)
      | some m =>
        .bodyRead msg_len :: .handlerInvoked :: .responseSent (handler m).1 ::
          handle_client decode handler (rest.drop msg_len)
  | _ => [.clientDisconnected]
termination_by stream => stream.length
decreasing_by all_goals (simp [List.length_drop]; omega)

/-- C9: whenever the handler loop reads a frame header whose declared
length exceeds the 10 MiB cap, it closes the connection at once: the
frame body is never read, no message handler is invoked, and no response
is sent for that frame (the only emitted event is the oversize
rejection). -/
theorem oversized_frame_rejected {Msg : Type} (decode : List Nat → Option Msg)
    (handler : Msg → Bool × String) (b0 b1 b2 b3 : Nat) (rest : List Nat)
    (hover : le32 b0 b1 b2 b3 > 10 * 1024 * 1024) :
    handle_client decode handler (b0 :: b1 :: b2 :: b3 :: rest) =
      [.oversizedClosed (le32 b0 b1 b2 b3)] ∧
    (∀ n, ServerEvent.bodyRead n ∉
      handle_client decode handler (b0 :: b1 :: b2 :: b3 :: rest)) ∧
    ServerEvent.handlerInvoked ∉
      handle_client decode handler (b0 :: b1 :: b2 :: b3 :: rest) ∧
    (∀ s, ServerEvent.responseSent s ∉
      handle_client decode handler (b0 :: b1 :: b2 :: b3 :: rest)) := by
  have heq : handle_client decode handler (b0 :: b1 :: b2 :: b3 :: rest) =
      [.oversizedClosed (le32 b0 b1 b2 b3)] := by
    unfold handle_client
    simp [hover]
  refine ⟨heq, fun n => ?_, ?_, fun s => ?_⟩ <;> rw [heq] <;> simp

/-- Witness for `oversized_frame_rejected`: a declared length of
16777216 bytes (header bytes `[0, 0, 0, 1]`) exceeds the 10 MiB cap and
is rejected without reading the body. -/
theorem oversized_frame_rejected_witness :
    handle_client (fun _ => (none : Option Unit)) (fun _ => (true, "ok"))
        [0, 0, 0, 1, 7, 7] =
      [.oversizedClosed 16777216] :=
  (oversized_frame_rejected (fun _ => (none : Option Unit))
    (fun _ => (true, "ok")) 0 0 0 1 [7, 7] (by decide)).1

/-- Test for an ASCII hexadecimal digit, as in Rust's
`char::is_ascii_hexdigit`: `0-9` (48-57), `A-F` (65-70) or `a-f`
(97-102). -/
def isAsciiHexDigit (c : Char) : Bool :=
  decide ((48 ≤ c.toNat ∧ c.toNat ≤ 57) ∨ (65 ≤ c.toNat ∧ c.toNat ≤ 70) ∨
    (97 ≤ c.toNat ∧ c.toNat ≤ 102))

/-- Test for a Unicode whitespace character, as in Rust's
`char::is_whitespace` (the `White_Space` property) used by `str::trim`:
listed by code point. -/
def isRustWhitespace (c : Char) : Bool :=
  decide (c.toNat ∈ [9, 10, 11, 12, 13, 32, 133, 160, 5760, 8192, 8193,
    8194, 8195, 8196, 8197, 8198, 8199, 8200, 8201, 8202, 8232, 8233,
    8239, 8287, 12288])

/-- Removal of leading and trailing whitespace from a character list, as
in Rust's `str::trim`. -/
def trimChars (cs : List Char) : List Char :=
  ((cs.dropWhile isRustWhitespace).reverse.dropWhile isRustWhitespace).reverse

mutual

/-- UTF-8 decoding of a byte list into characters, as performed by Rust's
`std::str::from_utf8`: one to four bytes per scalar value, rejecting
continuation-byte leads, overlong forms (leads `0xC0`/`0xC1`, and the
range restrictions on the second byte after `0xE0` and `0xF0`),
surrogates (restriction after `0xED`), values above `0x10FFFF`
(restriction after `0xF4`, leads `0xF5` and above), and truncated
sequences; the lead byte dispatches to the sequence-length-specific
continuation decoders. -/
def utf8Decode : List Nat → Option (List Char)
  | [] => some []
  | b :: rest =>
    if b < 0x80 then (utf8Decode rest).map (fun cs => Char.ofNat b :: cs)
    else if b < 0xC2 then none
    else if b < 0xE0 then utf8DecodeTwo b rest
    else if b < 0xF0 then utf8DecodeThree b rest
    else if b < 0xF5 then utf8DecodeFour b rest
    else none
termination_by l => l.length
decreasing_by all_goals (simp <;> omega)

/-- Continuation of a 2-byte UTF-8 sequence with lead byte `b`. -/
def utf8DecodeTwo (b : Nat) : List Nat → Option (List Char)
  | c1 :: rest2 =>
    if 0x80 ≤ c1 && c1 < 0xC0 then
      (utf8Decode rest2).map
        (fun cs => Char.ofNat ((b - 0xC0) * 64 + (c1 - 0x80)) :: cs)
    else none
  | [] => none
termination_by l => l.length
decreasing_by all_goals (simp <;> omega)

/-- Continuation of a 3-byte UTF-8 sequence with lead byte `b` (the
second-byte range depends on the lead to reject overlong forms and
surrogates). -/
def utf8DecodeThree (b : Nat) : List Nat → Option (List Char)
  | c1 :: c2 :: rest2 =>
    if (if b = 0xE0 then 0xA0 else 0x80) ≤ c1 &&
        c1 < (if b = 0xED then 0xA0 else 0xC0) &&
        0x80 ≤ c2 && c2 < 0xC0 then
      (utf8Decode rest2).map
        (fun cs =>
          Char.ofNat ((b - 0xE0) * 4096 + (c1 - 0x80) * 64 + (c2 - 0x80)) :: cs)
    else none
  | _ => none
termination_by l => l.length
decreasing_by all_goals (simp <;> omega)

/-- Continuation of a 4-byte UTF-8 sequence with lead byte `b` (the
second-byte range depends on the lead to reject overlong forms and
values above `0x10FFFF`). -/
def utf8DecodeFour (b : Nat) : List Nat → Option (List Char)
  | c1 :: c2 :: c3 :: rest2 =>
    if (if b = 0xF0 then 0x90 else 0x80) ≤ c1 &&
        c1 < (if b = 0xF4 then 0x90 else 0xC0) &&
        0x80 ≤ c2 && c2 < 0xC0 && 0x80 ≤ c3 && c3 < 0xC0 then
      (utf8Decode rest2).map
        (fun cs =>
          Char.ofNat ((b - 0xF0) * 262144 + (c1 - 0x80) * 4096 +
            (c2 - 0x80) * 64 + (c3 - 0x80)) :: cs)
    else none
  | _ => none
termination_by l => l.length
decreasing_by all_goals (simp <;> omega)

end

/-- UTF-8 encoding of one character, as in Rust's `str::as_bytes` view of
an owned string. -/
def utf8EncodeChar (c : Char) : List Nat :=
  let n := c.toNat
  if n < 0x80 then [n]
  else if n < 0x800 then [0xC0 + n / 64, 0x80 + n % 64]
  else if n < 0x10000 then
    [0xE0 + n / 4096, 0x80 + (n / 64) % 64, 0x80 + n % 64]
  else
    [0xF0 + n / 262144, 0x80 + (n / 4096) % 64, 0x80 + (n / 64) % 64,
      0x80 + n % 64]

/-- UTF-8 encoding of a character list. -/
def utf8Encode : List Char → List Nat
  | [] => []
  | c :: cs => utf8EncodeChar c ++ utf8Encode cs

/-- Embedding of `extract_evm_address_from_memo` (util.rs lines 516-538):
decode the memo bytes as UTF-8 (invalid UTF-8 is "no address", not an
error), trim whitespace, and accept either a 42-character `0x`-prefixed
all-hex string verbatim or a bare 40-character all-hex string with `0x`
prepended.  The Rust signature wraps the result in `Result`, but every
return site is `Ok`, so the embedding returns the `Option` directly; the
two Rust early-return `if` blocks flatten to the chained conditions
below (when the first block's length-and-prefix test passes but its hex
test fails, the second block's length test necessarily fails too). -/
def extract_evm_address_from_memo (memo_data : List Nat) : Option (List Char) :=
  match utf8Decode memo_data with
  | none => none
  | some decoded =>
    let memo_text := trimChars decoded
    if memo_text.length = 42 && memo_text.take 2 = ['0', 'x'] &&
        (memo_text.drop 2).all isAsciiHexDigit then
      some memo_text
    else if memo_text.length = 40 && memo_text.all isAsciiHexDigit then
      some ('0' :: 'x' :: memo_text)
    else none

/-- Little-endian byte-list decoding (least significant byte first). -/
def leDecode (l : List Nat) : Nat :=
  l.foldr (fun b acc => b + 256 * acc) 0

/-- The 8 little-endian bytes of a `u64`. -/
def le8Encode (n : Nat) : List Nat :=
  [n % 256, n / 256 % 256, n / 256 ^ 2 % 256, n / 256 ^ 3 % 256,
    n / 256 ^ 4 % 256, n / 256 ^ 5 % 256, n / 256 ^ 6 % 256,
    n / 256 ^ 7 % 256]

/-- Result of `bincode::deserialize::<SystemInstruction>` as consumed by
`parse_transfer_transaction`, which keeps only the
`Ok(SystemInstruction::Transfer { lamports })` case and collapses every
other outcome (other variants, malformed input) to "not a transfer".
Modelled from bincode v1's fixint encoding used by `solana-sdk`: a
4-byte little-endian `u32` variant tag (`Transfer` is variant 2)
followed by the 8 little-endian bytes of the `u64` lamports;
`bincode::deserialize` reads from the front and ignores trailing
bytes. -/
def decodeTransferLamports : List Nat → Option Nat
  | 2 :: 0 :: 0 :: 0 :: rest =>
    if rest.length ≥ 8 then some (leDecode (rest.take 8)) else none
  | _ => none

/-- A compiled instruction inside a transaction message, as in
`solana_sdk::instruction::CompiledInstruction`: indices into the
message's account table (bytes in the source) and the raw instruction
data. -/
structure CompiledInstruction where
  program_id_index : Nat
  accounts : List Nat
  data : List Nat
  deriving DecidableEq, Repr, Inhabited

/-- A transaction message: the account table and the compiled
instructions (the header is not inspected by the codec; pubkeys are
modelled as naturals ordered like their 32-byte big-endian
representations). -/
structure Message where
  account_keys : List Nat
  instructions : List CompiledInstruction
  recent_blockhash : Nat
  deriving DecidableEq, Repr

/-- A signed transaction, as inspected by the codec. -/
structure Transaction where
  signatures : List Nat
  message : Message
  deriving DecidableEq, Repr

/-- The system program id, base58 `11111111111111111111111111111111`
(32 zero bytes): modelled as the natural number 0, consistent with the
byte-lexicographic order on pubkeys. -/
def systemProgramId : Nat := 0

/-- The designated memo program id, base58
`11111111111111111111111111111112` (31 zero bytes then `0x01`): modelled
as the natural number 1, consistent with the byte-lexicographic order on
pubkeys.  `parse_transfer_transaction` compares against this id via
`to_string()` and `create_transfer_with_evm_memo` via
`Pubkey::try_from` of the same base58 string; both are equality with
this pubkey. -/
def memoProgramId : Nat := 1

/-- Embedding of `parse_transfer_transaction` (util.rs lines 437-505):
a transaction matches only if it has exactly two instructions
(otherwise "no match"), the two `program_id_index` values are in range
(otherwise a hard error), the first program is the system program and
the second the memo program (otherwise "no match"), the first
instruction's data decodes to `SystemInstruction::Transfer` (otherwise
"no match"), the transfer instruction carries exactly two account
indices (otherwise "no match") which are in range (otherwise a hard
error), and the memo carries a valid EVM address (otherwise "no
match"); on success it returns the source key, destination key,
lamports and normalized address.  The source's `len() != 2` checks
followed by indexing `[0]`/`[1]` (on the instruction list and on the
transfer instruction's account list) are modelled by the two-element
list patterns. -/
def parse_transfer_transaction (tx : Transaction) :
    Except String (Option (Nat × Nat × Nat × List Char)) :=
  match tx.message.instructions with
  | [transfer_instruction, memo_instruction] =>
    if transfer_instruction.program_id_index ≥ tx.message.account_keys.length ∨
        memo_instruction.program_id_index ≥ tx.message.account_keys.length then
      .error "Invalid program_id_index in instruction"
    else if tx.message.account_keys.getD transfer_instruction.program_id_index 0
        ≠ systemProgramId then .ok none
    else if tx.message.account_keys.getD memo_instruction.program_id_index 0
        ≠ memoProgramId then .ok none
    else
      match decodeTransferLamports transfer_instruction.data with
      | none => .ok none
      | some lamports =>
        match transfer_instruction.accounts with
        | [from_index, to_index] =>
          if from_index ≥ tx.message.account_keys.length ∨
              to_index ≥ tx.message.account_keys.length then
            .error "Invalid account index in transfer instruction"
          else
            match extract_evm_address_from_memo memo_instruction.data with
            | some addr =>
              .ok (some (tx.message.account_keys.getD from_index 0,
                tx.message.account_keys.getD to_index 0, lamports, addr))
            | none => .ok none
        | _ => .ok none
  | _ => .ok none

/-- An account reference of an uncompiled instruction, as in
`solana_sdk::instruction::AccountMeta`. -/
structure AccountMeta where
  pubkey : Nat
  is_signer : Bool
  is_writable : Bool
  deriving DecidableEq, Repr

/-- An uncompiled instruction, as in
`solana_sdk::instruction::Instruction`. -/
structure Instruction where
  program_id : Nat
  accounts : List AccountMeta
  data : List Nat
  deriving DecidableEq, Repr

/-- Per-key metadata accumulated while compiling a message, as in
`solana-sdk`'s `CompiledKeyMeta`. -/
structure KeyMeta where
  is_signer : Bool
  is_writable : Bool
  is_invoked : Bool
  deriving DecidableEq, Repr

instance : Inhabited KeyMeta := ⟨⟨false, false, false⟩⟩

/-- Entry update in a key-ordered association list, modelling
`BTreeMap::entry(k).or_default()` followed by a mutation `f` of the
entry. -/
def updateMeta (k : Nat) (f : KeyMeta → KeyMeta) :
    List (Nat × KeyMeta) → List (Nat × KeyMeta)
  | [] => [(k, f ⟨false, false, false⟩)]
  | (k2, m) :: rest =>
    if k = k2 then (k2, f m) :: rest
    else if k < k2 then (k, f ⟨false, false, false⟩) :: (k2, m) :: rest
    else (k2, m) :: updateMeta k f rest

/-- Folding one instruction into the key-meta map, as in
`CompiledKeys::compile`: the program id is marked invoked, and each
account meta's signer/writable flags are or-ed into its entry. -/
def addInstructionMetas (m : List (Nat × KeyMeta)) (ix : Instruction) :
    List (Nat × KeyMeta) :=
  ix.accounts.foldl
    (fun acc am =>
      updateMeta am.pubkey
        (fun km =>
          ⟨km.is_signer || am.is_signer, km.is_writable || am.is_writable,
            km.is_invoked⟩)
        acc)
    (updateMeta ix.program_id (fun km => ⟨km.is_signer, km.is_writable, true⟩) m)

/-- Modelled from `solana-sdk`'s `CompiledKeys::compile`: accumulate the
key metadata of every instruction into a `BTreeMap` (here a key-sorted
association list), then force the payer to be a writable signer. -/
def compiledKeys (ixs : List Instruction) (payer : Nat) :
    List (Nat × KeyMeta) :=
  updateMeta payer (fun km => ⟨true, true, km.is_invoked⟩)
    (ixs.foldl addInstructionMetas [])

/-- Modelled from `solana-sdk`'s
`CompiledKeys::try_into_message_components`: the account table is the
payer, then the remaining writable signers, the readonly signers, the
writable non-signers and the readonly non-signers, each group in key
order. -/
def messageAccountKeys (ixs : List Instruction) (payer : Nat) : List Nat :=
  let m := compiledKeys ixs payer
  [payer] ++
    (m.filter (fun e => e.1 != payer && e.2.is_signer && e.2.is_writable)).map (·.1) ++
    (m.filter (fun e => e.2.is_signer && !e.2.is_writable)).map (·.1) ++
    (m.filter (fun e => !e.2.is_signer && e.2.is_writable)).map (·.1) ++
    (m.filter (fun e => !e.2.is_signer && !e.2.is_writable)).map (·.1)

/-- Position of a key in the account table, as in `position_of` during
instruction compilation (the compiled tables contain every referenced
key, so the not-found value is never produced there). -/
def posOf (k : Nat) : List Nat → Nat
  | [] => 0
  | a :: rest => if a = k then 0 else posOf k rest + 1

/-- Compilation of one instruction against the account table, as in
`solana-sdk`'s `compile_instruction`. -/
def compileInstruction (keys : List Nat) (ix : Instruction) :
    CompiledInstruction :=
  ⟨posOf ix.program_id keys, ix.accounts.map (fun am => posOf am.pubkey keys),
    ix.data⟩

/-- Modelled from `solana-sdk`'s `Message::new_with_blockhash` as used by
`Transaction::new_with_payer` followed by `sign`: compile the account
table and the instructions. -/
def newWithPayer (ixs : List Instruction) (payer : Nat)
    (recent_blockhash : Nat) : Message :=
  let keys := messageAccountKeys ixs payer
  ⟨keys, ixs.map (compileInstruction keys), recent_blockhash⟩

/-- Embedding of `create_transfer_with_evm_memo` (util.rs lines 572-620):
normalize the EVM address — a string starting with `0x` is taken
verbatim (the source performs no further validation on it), a bare
40-hex-character string gets `0x` prepended, and anything else is the
"Invalid EVM address format" error, raised before any network or channel
interaction — then build the system-program transfer instruction (two
account metas: signing writable source, writable destination; data:
bincode tag 2 then the little-endian lamports) and the memo instruction
(no accounts; data: the UTF-8 bytes of the normalized address), compile
the message with the source as payer, and sign.  `Transaction::sign`
fills `signatures[0]` with the ed25519 signature — opaque to the codec,
which never reads signatures — modelled as a placeholder 0. -/
def create_transfer_with_evm_memo (sender dest amount : Nat)
    (evm_address : List Char) (recent_blockhash : Nat) :
    Except String Transaction :=
  let normalized :=
    if evm_address.take 2 = ['0', 'x'] then some evm_address
    else if evm_address.length = 40 && evm_address.all isAsciiHexDigit then
      some ('0' :: 'x' :: evm_address)
    else none
  match normalized with
  | none => .error "Invalid EVM address format"
  | some normalized_evm_address =>
    let transfer_instruction : Instruction :=
      ⟨systemProgramId, [⟨sender, true, true⟩, ⟨dest, false, true⟩],
        2 :: 0 :: 0 :: 0 :: le8Encode amount⟩
    let memo_instruction : Instruction :=
      ⟨memoProgramId, [], utf8Encode normalized_evm_address⟩
    .ok ⟨[0],
      newWithPayer [transfer_instruction, memo_instruction] sender
        recent_blockhash⟩

theorem dropWhile_all_false (p : Char → Bool) :
    ∀ l : List Char, (∀ c ∈ l, p c = false) → l.dropWhile p = l := by
  intro l h
  cases l with
  | nil => rfl
  | cons a t => simp [List.dropWhile, h a (by simp)]

theorem trimChars_no_ws (cs : List Char)
    (h : ∀ c ∈ cs, isRustWhitespace c = false) : trimChars cs = cs := by
  unfold trimChars
  rw [dropWhile_all_false isRustWhitespace cs h]
  rw [dropWhile_all_false isRustWhitespace cs.reverse
    (fun c hc => h c (List.mem_reverse.mp hc))]
  exact List.reverse_reverse cs

theorem hexDigit_ascii_not_ws (c : Char) (h : isAsciiHexDigit c = true) :
    c.toNat < 128 ∧ isRustWhitespace c = false := by
  simp only [isAsciiHexDigit, decide_eq_true_eq] at h
  constructor
  · omega
  · simp [isRustWhitespace]
    omega

theorem utf8EncodeChar_ascii (c : Char) (h : c.toNat < 128) :
    utf8EncodeChar c = [c.toNat] := by
  simp [utf8EncodeChar, h]

set_option maxHeartbeats 1000000 in
theorem utf8Decode_ascii_cons (b : Nat) (rest : List Nat) (h : b < 128) :
    utf8Decode (b :: rest) =
      (utf8Decode rest).map (fun cs => Char.ofNat b :: cs) := by
  rw [utf8Decode]
  rw [if_pos h]

theorem utf8_roundtrip_ascii :
    ∀ cs : List Char, (∀ c ∈ cs, c.toNat < 128) →
      utf8Decode (utf8Encode cs) = some cs := by
  intro cs
  induction cs with
  | nil => intro _; rw [utf8Encode, utf8Decode]
  | cons c t ih =>
    intro h
    have hc := h c (by simp)
    rw [utf8Encode, utf8EncodeChar_ascii c hc]
    simp only [List.cons_append, List.nil_append]
    rw [utf8Decode_ascii_cons c.toNat (utf8Encode t) hc,
      ih (fun x hx => h x (by simp [hx]))]
    simp [Char.ofNat_toNat]

theorem leDecode_le8Encode (n : Nat) (h : n < 2 ^ 64) :
    leDecode (le8Encode n) = n := by
  simp only [le8Encode, leDecode, List.foldr]
  norm_num
  omega

theorem le8Encode_take8 (n : Nat) : (le8Encode n).take 8 = le8Encode n := rfl

theorem le8Encode_length (n : Nat) : (le8Encode n).length = 8 := rfl

/-- C2 (amended): `parse_transfer_transaction` is total — it returns a
hard error exactly when the instruction count is 2 and either a
`program_id_index` is out of range for the account table, or (with both
program indices in range) the programs are the system and memo programs,
the first instruction decodes to a transfer carrying exactly two account
indices, and one of those two indices is out of range.  Every other
transaction — wrong instruction count, wrong programs, undecodable
transfer, wrong account count, or invalid memo — yields "no match"
(`Ok(None)`), never an error; in particular an out-of-range index is
*not* an error when an earlier structural check already failed. -/
theorem parse_error_characterization :
    (∀ tx : Transaction, tx.message.instructions.length ≠ 2 →
      parse_transfer_transaction tx = .ok none) ∧
    (∀ (sigs keys : List Nat) (i0 i1 : CompiledInstruction) (bh : Nat),
      exErr (parse_transfer_transaction ⟨sigs, ⟨keys, [i0, i1], bh⟩⟩) = true ↔
        ((i0.program_id_index ≥ keys.length ∨
            i1.program_id_index ≥ keys.length) ∨
          (i0.program_id_index < keys.length ∧
            i1.program_id_index < keys.length ∧
            keys.getD i0.program_id_index 0 = systemProgramId ∧
            keys.getD i1.program_id_index 0 = memoProgramId ∧
            (decodeTransferLamports i0.data).isSome = true ∧
            ∃ a0 a1, i0.accounts = [a0, a1] ∧
              (a0 ≥ keys.length ∨ a1 ≥ keys.length)))) := by
  constructor
  · intro tx h
    match hi : tx.message.instructions with
    | [] => simp [parse_transfer_transaction, hi]
    | [a] => simp [parse_transfer_transaction, hi]
    | [a, b] => rw [hi] at h; simp at h
    | a :: b :: c :: t => simp [parse_transfer_transaction, hi]
  · intro sigs keys i0 i1 bh
    by_cases h2 : i0.program_id_index ≥ keys.length ∨
        i1.program_id_index ≥ keys.length
    · simp [parse_transfer_transaction, exErr, h2]
    · have h2a : i0.program_id_index < keys.length := by omega
      have h2b : i1.program_id_index < keys.length := by omega
      by_cases h3 : keys.getD i0.program_id_index 0 = systemProgramId
      · by_cases h4 : keys.getD i1.program_id_index 0 = memoProgramId
        · rw [List.getD_eq_getElem?_getD, List.getElem?_eq_getElem h2a,
            Option.getD_some] at h3
          rw [List.getD_eq_getElem?_getD, List.getElem?_eq_getElem h2b,
            Option.getD_some] at h4
          cases hdec : decodeTransferLamports i0.data with
          | none =>
            simp [parse_transfer_transaction, exErr, h2, h2a, h2b, h3, h4, hdec]
          | some lamports =>
            match hacc : i0.accounts with
            | [] =>
              simp [parse_transfer_transaction, exErr, h2, h2a, h2b, h3, h4,
                hdec, hacc]
            | [a0] =>
              simp [parse_transfer_transaction, exErr, h2, h2a, h2b, h3, h4,
                hdec, hacc]
            | a0 :: a1 :: c :: t =>
              simp [parse_transfer_transaction, exErr, h2, h2a, h2b, h3, h4,
                hdec, hacc]
            | [a0, a1] =>
              by_cases h6 : a0 ≥ keys.length ∨ a1 ≥ keys.length
              · simp [parse_transfer_transaction, exErr, h2, h2a, h2b, h3, h4,
                  hdec, hacc, h6] <;> exact ⟨a0, a1, ⟨rfl, rfl⟩, by omega⟩
              · cases hext : extract_evm_address_from_memo i1.data with
                | none =>
                  simp [parse_transfer_transaction, exErr, h2, h2a, h2b, h3,
                    h4, hdec, hacc, h6, hext] <;> omega
                | some addr =>
                  simp [parse_transfer_transaction, exErr, h2, h2a, h2b, h3,
                    h4, hdec, hacc, h6, hext] <;> omega
        · rw [List.getD_eq_getElem?_getD] at h3 h4
          simp [parse_transfer_transaction, exErr, h2, h3, h4]
      · rw [List.getD_eq_getElem?_getD] at h3
        simp [parse_transfer_transaction, exErr, h2, h3]

/-- Witness for `parse_error_characterization` at concrete transactions:
a three-instruction transaction is "no match", and a two-instruction
transaction with an out-of-range `program_id_index` satisfies the error
characterization. -/
theorem parse_error_characterization_witness :
    parse_transfer_transaction
        ⟨[0], ⟨[0], [⟨0, [], []⟩, ⟨0, [], []⟩, ⟨0, [], []⟩], 0⟩⟩ = .ok none ∧
    (exErr (parse_transfer_transaction
        ⟨[0], ⟨[0], [⟨7, [], []⟩, ⟨0, [], []⟩], 0⟩⟩) = true ↔
      (((⟨7, [], []⟩ : CompiledInstruction).program_id_index ≥
          ([0] : List Nat).length ∨
        (⟨0, [], []⟩ : CompiledInstruction).program_id_index ≥
          ([0] : List Nat).length) ∨
        ((⟨7, [], []⟩ : CompiledInstruction).program_id_index <
            ([0] : List Nat).length ∧
          (⟨0, [], []⟩ : CompiledInstruction).program_id_index <
            ([0] : List Nat).length ∧
          ([0] : List Nat).getD
            (⟨7, [], []⟩ : CompiledInstruction).program_id_index 0 =
              systemProgramId ∧
          ([0] : List Nat).getD
            (⟨0, [], []⟩ : CompiledInstruction).program_id_index 0 =
              memoProgramId ∧
          (decodeTransferLamports
            (⟨7, [], []⟩ : CompiledInstruction).data).isSome = true ∧
          ∃ a0 a1, (⟨7, [], []⟩ : CompiledInstruction).accounts = [a0, a1] ∧
            (a0 ≥ ([0] : List Nat).length ∨
              a1 ≥ ([0] : List Nat).length)))) :=
  ⟨parse_error_characterization.1
      ⟨[0], ⟨[0], [⟨0, [], []⟩, ⟨0, [], []⟩, ⟨0, [], []⟩], 0⟩⟩ (by decide),
    parse_error_characterization.2 [0] [0] ⟨7, [], []⟩ ⟨0, [], []⟩ 0⟩

/-- Counterexample to C2 as stated: this transaction's only instruction
has `program_id_index` 5 and account-index 9, both far out of range for
its one-entry account table, yet `parse_transfer_transaction` returns
"no match" (`Ok(None)`), not a hard error — because the
instruction-count check runs first, an out-of-range account index does
not "always" yield an error. -/
theorem parse_out_of_range_not_always_error :
    parse_transfer_transaction
        ⟨[0], ⟨[0], [⟨5, [9], []⟩], 0⟩⟩ = .ok none ∧
    (5 : Nat) ≥
      (Transaction.mk [0] ⟨[0], [⟨5, [9], []⟩], 0⟩).message.account_keys.length ∧
    (9 : Nat) ≥
      (Transaction.mk [0] ⟨[0], [⟨5, [9], []⟩], 0⟩).message.account_keys.length := by
  refine ⟨rfl, by decide, by decide⟩

/-- C4 (amended): `create_transfer_with_evm_memo` succeeds exactly when
the address either starts with `0x` — in which case the source accepts it
verbatim with no further validation of length or hex content — or is a
bare string of exactly 40 hex characters (then normalized with a `0x`
prefix); every other address is rejected with the descriptive
"Invalid EVM address format" error before any network interaction. -/
theorem build_address_validation (sender dest amount bh : Nat)
    (addr : List Char) :
    exOk (create_transfer_with_evm_memo sender dest amount addr bh) = true ↔
      (addr.take 2 = ['0', 'x'] ∨
        (addr.length = 40 ∧ addr.all isAsciiHexDigit = true)) := by
  by_cases h1 : addr.take 2 = ['0', 'x']
  · simp [create_transfer_with_evm_memo, exOk, h1]
  · by_cases h2 : addr.length = 40 ∧ addr.all isAsciiHexDigit = true
    · simp [create_transfer_with_evm_memo, exOk, h1, h2.1, h2.2]
    · have h2b : ¬(addr.length = 40 ∧ addr.all isAsciiHexDigit = true) := h2
      rcases Decidable.not_and_iff_or_not.mp h2b with h2c | h2c <;>
        simp [create_transfer_with_evm_memo, exOk, h1, h2c] <;>
        intro hlen <;> simp_all

/-- Counterexample to C4 as stated: the address `0xzz` is not 40 hex
characters (with or without the prefix), yet the builder accepts it and
returns a signed transaction instead of an error, because any address
starting with `0x` bypasses validation. -/
theorem build_accepts_invalid_prefixed_address :
    exOk (create_transfer_with_evm_memo 5 7 10 ['0', 'x', 'z', 'z'] 3) = true ∧
    ¬((['0', 'x', 'z', 'z'] : List Char).length = 40 ∧
      (['0', 'x', 'z', 'z'] : List Char).all isAsciiHexDigit = true) ∧
    ¬((['0', 'x', 'z', 'z'] : List Char).drop 2).all isAsciiHexDigit = true := by
  refine ⟨rfl, by decide, by decide⟩

theorem messageAccountKeys_transfer_memo (sender dest : Nat)
    (d1 d2 : List Nat)
    (hs0 : sender ≠ 0) (hs1 : sender ≠ 1) (hd0 : dest ≠ 0) (hd1 : dest ≠ 1)
    (hsd : sender ≠ dest) :
    messageAccountKeys
      [⟨systemProgramId, [⟨sender, true, true⟩, ⟨dest, false, true⟩], d1⟩,
        ⟨memoProgramId, [], d2⟩] sender = [sender, dest, 0, 1] := by
  have hds : dest ≠ sender := Ne.symm hsd
  have hs1b : (1 : Nat) ≠ sender := Ne.symm hs1
  have hd1b : (1 : Nat) ≠ dest := Ne.symm hd1
  have h1s : 1 < sender := by omega
  have h1d : 1 < dest := by omega
  have hns1 : ¬ sender < 1 := by omega
  rcases Nat.lt_or_ge sender dest with h | h
  · have hnds : ¬ dest < sender := by omega
    simp [messageAccountKeys, compiledKeys, addInstructionMetas, updateMeta,
      systemProgramId, memoProgramId, hs0, hd0, hs1, hd1, hsd, hds, hs1b,
      hd1b, h1s, h1d, hns1, hnds, h]
  · have h2 : dest < sender := by omega
    have hnsd : ¬ sender < dest := by omega
    simp [messageAccountKeys, compiledKeys, addInstructionMetas, updateMeta,
      systemProgramId, memoProgramId, hs0, hd0, hs1, hd1, hsd, hds, hs1b,
      hd1b, h1s, h1d, hns1, hnsd, h2]

theorem messageAccountKeys_transfer_memo_self (sender : Nat)
    (d1 d2 : List Nat) (hs0 : sender ≠ 0) (hs1 : sender ≠ 1) :
    messageAccountKeys
      [⟨systemProgramId, [⟨sender, true, true⟩, ⟨sender, false, true⟩], d1⟩,
        ⟨memoProgramId, [], d2⟩] sender = [sender, 0, 1] := by
  have hs1b : (1 : Nat) ≠ sender := Ne.symm hs1
  have h1s : 1 < sender := by omega
  have hns1 : ¬ sender < 1 := by omega
  simp [messageAccountKeys, compiledKeys, addInstructionMetas, updateMeta,
    systemProgramId, memoProgramId, hs0, hs1, hs1b, h1s, hns1]

theorem all_hex_ascii (r : List Char) (hrhex : r.all isAsciiHexDigit = true) :
    ∀ c ∈ ('0' :: 'x' :: r), c.toNat < 128 := by
  intro c hc
  rcases List.mem_cons.mp hc with rfl | hc2
  · decide
  rcases List.mem_cons.mp hc2 with rfl | hc3
  · decide
  · exact (hexDigit_ascii_not_ws c (List.all_eq_true.mp hrhex c hc3)).1

theorem all_hex_no_ws (r : List Char) (hrhex : r.all isAsciiHexDigit = true) :
    ∀ c ∈ ('0' :: 'x' :: r), isRustWhitespace c = false := by
  intro c hc
  rcases List.mem_cons.mp hc with rfl | hc2
  · decide
  rcases List.mem_cons.mp hc2 with rfl | hc3
  · decide
  · exact (hexDigit_ascii_not_ws c (List.all_eq_true.mp hrhex c hc3)).2

theorem extract_roundtrip (r : List Char) (hrlen : r.length = 40)
    (hrhex : r.all isAsciiHexDigit = true) :
    extract_evm_address_from_memo (utf8Encode ('0' :: 'x' :: r)) =
      some ('0' :: 'x' :: r) := by
  unfold extract_evm_address_from_memo
  rw [utf8_roundtrip_ascii ('0' :: 'x' :: r) (all_hex_ascii r hrhex)]
  simp [trimChars_no_ws ('0' :: 'x' :: r) (all_hex_no_ws r hrhex), hrlen,
    hrhex]

theorem parse_built_transaction (sender dest amount bh : Nat) (r : List Char)
    (hs0 : sender ≠ 0) (hs1 : sender ≠ 1) (hd0 : dest ≠ 0) (hd1 : dest ≠ 1)
    (hsd : sender ≠ dest) (hamount : amount < 2 ^ 64)
    (hrlen : r.length = 40) (hrhex : r.all isAsciiHexDigit = true) :
    parse_transfer_transaction
      ⟨[0],
        newWithPayer
          [⟨systemProgramId, [⟨sender, true, true⟩, ⟨dest, false, true⟩],
            2 :: 0 :: 0 :: 0 :: le8Encode amount⟩,
            ⟨memoProgramId, [], utf8Encode ('0' :: 'x' :: r)⟩] sender bh⟩ =
      .ok (some (sender, dest, amount, '0' :: 'x' :: r)) := by
  have hkeys := messageAccountKeys_transfer_memo sender dest
    (2 :: 0 :: 0 :: 0 :: le8Encode amount) (utf8Encode ('0' :: 'x' :: r))
    hs0 hs1 hd0 hd1 hsd
  have hp0 : posOf systemProgramId [sender, dest, 0, 1] = 2 := by
    simp [posOf, systemProgramId, hs0, hd0]
  have hp1 : posOf memoProgramId [sender, dest, 0, 1] = 3 := by
    simp [posOf, memoProgramId, hs1, hd1]
  have hps : posOf sender [sender, dest, 0, 1] = 0 := by simp [posOf]
  have hpd : posOf dest [sender, dest, 0, 1] = 1 := by simp [posOf, hsd]
  simp only [newWithPayer, hkeys, List.map, compileInstruction, hp0, hp1,
    hps, hpd]
  simp [parse_transfer_transaction, systemProgramId, memoProgramId,
    decodeTransferLamports, le8Encode_length, le8Encode_take8,
    leDecode_le8Encode amount hamount, extract_roundtrip r hrlen hrhex,
    List.getD]

theorem parse_built_transaction_self (sender amount bh : Nat) (r : List Char)
    (hs0 : sender ≠ 0) (hs1 : sender ≠ 1) (hamount : amount < 2 ^ 64)
    (hrlen : r.length = 40) (hrhex : r.all isAsciiHexDigit = true) :
    parse_transfer_transaction
      ⟨[0],
        newWithPayer
          [⟨systemProgramId, [⟨sender, true, true⟩, ⟨sender, false, true⟩],
            2 :: 0 :: 0 :: 0 :: le8Encode amount⟩,
            ⟨memoProgramId, [], utf8Encode ('0' :: 'x' :: r)⟩] sender bh⟩ =
      .ok (some (sender, sender, amount, '0' :: 'x' :: r)) := by
  have hkeys := messageAccountKeys_transfer_memo_self sender
    (2 :: 0 :: 0 :: 0 :: le8Encode amount) (utf8Encode ('0' :: 'x' :: r))
    hs0 hs1
  have hp0 : posOf systemProgramId [sender, 0, 1] = 1 := by
    simp [posOf, systemProgramId, hs0]
  have hp1 : posOf memoProgramId [sender, 0, 1] = 2 := by
    simp [posOf, memoProgramId, hs1]
  have hps : posOf sender [sender, 0, 1] = 0 := by simp [posOf]
  simp only [newWithPayer, hkeys, List.map, compileInstruction, hp0, hp1, hps]
  simp [parse_transfer_transaction, systemProgramId, memoProgramId,
    decodeTransferLamports, le8Encode_length, le8Encode_take8,
    leDecode_le8Encode amount hamount, extract_roundtrip r hrlen hrhex,
    List.getD]

theorem parse_built_transaction_any (sender dest amount bh : Nat)
    (r : List Char)
    (hs0 : sender ≠ 0) (hs1 : sender ≠ 1) (hd0 : dest ≠ 0) (hd1 : dest ≠ 1)
    (hamount : amount < 2 ^ 64)
    (hrlen : r.length = 40) (hrhex : r.all isAsciiHexDigit = true) :
    parse_transfer_transaction
      ⟨[0],
        newWithPayer
          [⟨systemProgramId, [⟨sender, true, true⟩, ⟨dest, false, true⟩],
            2 :: 0 :: 0 :: 0 :: le8Encode amount⟩,
            ⟨memoProgramId, [], utf8Encode ('0' :: 'x' :: r)⟩] sender bh⟩ =
      .ok (some (sender, dest, amount, '0' :: 'x' :: r)) := by
  by_cases hsd : sender = dest
  · subst hsd
    exact parse_built_transaction_self sender amount bh r hs0 hs1 hamount
      hrlen hrhex
  · exact parse_built_transaction sender dest amount bh r hs0 hs1 hd0 hd1
      hsd hamount hrlen hrhex

/-- C3: building a transfer-with-memo transaction and parsing it back
recovers exactly the signer's public key as source, the destination, the
amount, and the input address normalized to `0x`-prefixed form, for every
address that is exactly 40 hex characters with or without the `0x`
prefix.  The signer and destination are arbitrary keys distinct from the
two program ids (a signer's ed25519 public key never equals a program
id); they may coincide — a self-transfer compiles the duplicated key
once, with the transfer's accounts both pointing at it — and the amount
is any `u64` value. -/
theorem build_parse_roundtrip (sender dest amount bh : Nat) (addr : List Char)
    (hs0 : sender ≠ 0) (hs1 : sender ≠ 1) (hd0 : dest ≠ 0) (hd1 : dest ≠ 1)
    (hamount : amount < 2 ^ 64)
    (haddr : (addr.length = 40 ∧ addr.all isAsciiHexDigit = true) ∨
      (∃ rest, addr = '0' :: 'x' :: rest ∧ rest.length = 40 ∧
        rest.all isAsciiHexDigit = true)) :
    ∃ tx, create_transfer_with_evm_memo sender dest amount addr bh = .ok tx ∧
      parse_transfer_transaction tx =
        .ok (some (sender, dest, amount,
          if addr.take 2 = ['0', 'x'] then addr else '0' :: 'x' :: addr)) := by
  rcases haddr with ⟨hlen, hhex⟩ | ⟨rest, rfl, hlen, hhex⟩
  · have htake : addr.take 2 ≠ ['0', 'x'] := by
      intro hteq
      match addr, hteq with
      | a :: b :: t, hteq =>
        simp [List.take] at hteq
        have hxmem : 'x' ∈ a :: b :: t := by simp [hteq.2]
        have := List.all_eq_true.mp hhex 'x' hxmem
        simp [isAsciiHexDigit] at this
    refine ⟨⟨[0],
        newWithPayer
          [⟨systemProgramId, [⟨sender, true, true⟩, ⟨dest, false, true⟩],
            2 :: 0 :: 0 :: 0 :: le8Encode amount⟩,
            ⟨memoProgramId, [], utf8Encode ('0' :: 'x' :: addr)⟩] sender bh⟩,
      ?_, ?_⟩
    · simp [create_transfer_with_evm_memo, htake, hlen, hhex]
    · rw [if_neg htake]
      exact parse_built_transaction_any sender dest amount bh addr
        hs0 hs1 hd0 hd1 hamount hlen hhex
  · have htake : ('0' :: 'x' :: rest).take 2 = ['0', 'x'] := by
      simp [List.take]
    refine ⟨⟨[0],
        newWithPayer
          [⟨systemProgramId, [⟨sender, true, true⟩, ⟨dest, false, true⟩],
            2 :: 0 :: 0 :: 0 :: le8Encode amount⟩,
            ⟨memoProgramId, [], utf8Encode ('0' :: 'x' :: rest)⟩] sender bh⟩,
      ?_, ?_⟩
    · simp [create_transfer_with_evm_memo, htake]
    · rw [if_pos htake]
      exact parse_built_transaction_any sender dest amount bh rest
        hs0 hs1 hd0 hd1 hamount hlen hhex

/-- Witness for `build_parse_roundtrip` at a concrete signer, destination,
amount and bare 40-hex-character address. -/
theorem build_parse_roundtrip_witness :
    ∃ tx,
      create_transfer_with_evm_memo 5 7 1000
          ['7', '4', '2', 'd', '3', '5', 'C', 'c', '6', '6', '3', '4', 'C',
            '0', '5', '3', '2', '9', '2', '5', 'a', '3', 'b', '8', 'D', '4',
            'C', '2', 'C', '4', 'e', '0', 'C', '8', 'b', '8', '3', '2', '6',
            '5'] 99 = .ok tx ∧
      parse_transfer_transaction tx =
        .ok (some (5, 7, 1000,
          if (['7', '4', '2', 'd', '3', '5', 'C', 'c', '6', '6', '3', '4',
              'C', '0', '5', '3', '2', '9', '2', '5', 'a', '3', 'b', '8',
              'D', '4', 'C', '2', 'C', '4', 'e', '0', 'C', '8', 'b', '8',
              '3', '2', '6', '5'] : List Char).take 2 = ['0', 'x'] then
            ['7', '4', '2', 'd', '3', '5', 'C', 'c', '6', '6', '3', '4', 'C',
              '0', '5', '3', '2', '9', '2', '5', 'a', '3', 'b', '8', 'D',
              '4', 'C', '2', 'C', '4', 'e', '0', 'C', '8', 'b', '8', '3',
              '2', '6', '5']
          else
            '0' :: 'x' ::
              ['7', '4', '2', 'd', '3', '5', 'C', 'c', '6', '6', '3', '4',
                'C', '0', '5', '3', '2', '9', '2', '5', 'a', '3', 'b', '8',
                'D', '4', 'C', '2', 'C', '4', 'e', '0', 'C', '8', 'b', '8',
                '3', '2', '6', '5'])) :=
  build_parse_roundtrip 5 7 1000 99
    ['7', '4', '2', 'd', '3', '5', 'C', 'c', '6', '6', '3', '4', 'C', '0',
      '5', '3', '2', '9', '2', '5', 'a', '3', 'b', '8', 'D', '4', 'C', '2',
      'C', '4', 'e', '0', 'C', '8', 'b', '8', '3', '2', '6', '5']
    (by decide) (by decide) (by decide) (by decide) (by decide)
    (Or.inl ⟨by decide, by decide⟩)

end MultivmBridge
